import Mathlib

/-!
Verification of the Cloudflare Logpush HTTP receiver (`log-receiver/app.py`).

The Python program is shallowly embedded: Python `str` values flowing through
the request pipeline are modelled as `List Char`, raw request bodies as
`List Nat` (byte values), JSON values as the inductive `JsonVal`, and the
library calls the program makes (`gzip.decompress`, `bytes.decode("utf-8")`,
`json.loads`, `json.dumps`, `requests.post`, `time.time`) as components of an
abstract environment `Env`.  The only library call modelled concretely is
`datetime.fromisoformat` composed with `int(.timestamp() * 1e9)` (see
`fromisoResult` / `floatNsOfMicros`), because the numeric claims are about it.
Stateful effects are made explicit: functions that perform the outbound HTTP
push also return the list of push payloads sent, and functions that can raise
a Python exception return `Except String` carrying the exception message.
-/

set_option autoImplicit false

/-- JSON values as produced by `json.loads`.  Numeric literals are modelled as
integers (the claims under study only involve integer-valued JSON numbers). -/
inductive JsonVal where
  | null
  | bool (b : Bool)
  | num (n : Int)
  | str (s : String)
  | arr (elems : List JsonVal)
  | obj (fields : List (String × JsonVal))

/-- Python truthiness (`if x:`) of a JSON-compatible value: `None`, `False`,
`0`, `""` and empty containers are falsy, everything else is truthy. -/
def truthy : JsonVal → Bool
  | .null => false
  | .bool b => b
  | .num n => !(n == 0)
  | .str s => !(s == "")
  | .arr es => !es.isEmpty
  | .obj fs => !fs.isEmpty

/-- Python substring test `needle in hay` on strings (modelled as char lists). -/
def containsSeq (needle : List Char) : List Char → Bool
  | [] => needle.isEmpty
  | c :: cs => needle.isPrefixOf (c :: cs) || containsSeq needle cs

/-- Characters stripped by Python `str.strip()` (the ASCII whitespace set;
exotic Unicode space characters are outside the model). -/
def isPyWs (c : Char) : Bool :=
  c == ' ' || c == '\t' || c == '\n' || c == '\r' || c == Char.ofNat 11 || c == Char.ofNat 12

/-- Python `str.strip()`: drop leading and trailing whitespace. -/
def pyStrip (s : List Char) : List Char :=
  ((s.dropWhile isPyWs).reverse.dropWhile isPyWs).reverse

/-- Python `str.split('\n')`: split on every newline character; the result is
always non-empty and splitting the empty string yields `[""]`. -/
def splitNewline : List Char → List (List Char)
  | [] => [[]]
  | c :: cs =>
    match splitNewline cs with
    | [] => [[]]
    | h :: t => if c = '\n' then [] :: h :: t else (c :: h) :: t

/-- Error raised by `gzip.decompress`: `gzip.BadGzipFile` (wrong magic) is
caught by its own `except` arm in the source, any other exception by the
generic arm; both arms fall back to raw decoding. -/
inductive GzipError where
  | badGzipFile
  | other (msg : String)

/-- Labels dictionary attached to a pushed stream (`dict` of `str` keys; the
`host` value is copied verbatim from a record, so it is a `JsonVal`). -/
abbrev Labels := List (String × JsonVal)

/-- One stream of the Loki push wire format: a label set paired with ordered
`[timestamp_ns_string, json_string]` pairs. -/
structure LokiStream where
  stream : Labels
  values : List (List Char × List Char)

/-- The envelope `{"streams": [...]}` POSTed to `<LOKI_URL>/loki/api/v1/push`. -/
structure PushPayload where
  streams : List LokiStream

/-- The payload built by `push_to_loki` (lines 60-65): a single stream with
the given labels and values. -/
def mkPayload (labels : Labels) (vals : List (List Char × List Char)) : PushPayload :=
  { streams := [{ stream := labels, values := vals }] }

/-- HTTP response of the Flask handler: JSON body paired with a status code. -/
abbrev Response := JsonVal × Nat

/-- Abstract environment: the external library calls made by the program.
`gz` is `gzip.decompress`, `utf8` is `bytes.decode("utf-8")` (errors carry the
exception message), `loads` is `json.loads` (`none` on `JSONDecodeError`),
`dumps` is `json.dumps`, `post` is `requests.post` to the Loki push endpoint
returning either a network-level error or the final HTTP status code, and
`now` is the value `int(time.time() * 1e9)` during the request. -/
structure Env where
  gz : List Nat → Except GzipError (List Nat)
  utf8 : List Nat → Except String (List Char)
  loads : List Char → Option JsonVal
  dumps : JsonVal → List Char
  post : PushPayload → Except String Nat
  now : Nat

/-- Configuration read from the process environment (`AUTH_TOKEN`, default
placeholder `"changeme"`). -/
structure Config where
  authToken : String

/-- Method of the incoming request (only `GET` and `POST` are routed). -/
inductive HttpMethod where
  | get
  | post
  deriving DecidableEq

/-- Incoming HTTP request: method, optional `Authorization` header, optional
`token` query parameter, raw body bytes. -/
structure HttpRequest where
  method : HttpMethod
  authHeader : Option String
  tokenArg : Option String
  body : List Nat

/-! ### Timestamp conversion (`push_to_loki` lines 41-58) -/

/-- Value of a decimal digit character, `none` for non-digits. -/
def digitVal (c : Char) : Option Nat :=
  if c.isDigit then some (c.toNat - 48) else none

/-- Two-digit decimal number. -/
def num2 (a b : Char) : Option Nat := do
  let x ← digitVal a
  let y ← digitVal b
  pure (10 * x + y)

/-- Four-digit decimal number. -/
def num4 (a b c d : Char) : Option Nat := do
  let x ← num2 a b
  let y ← num2 c d
  pure (100 * x + y)

/-- Gregorian leap-year test. -/
def isLeapYear (y : Nat) : Bool :=
  (y % 4 == 0 && !(y % 100 == 0)) || y % 400 == 0

/-- Days in a month of the proleptic Gregorian calendar. -/
def daysInMonth (y m : Nat) : Nat :=
  if m = 2 then (if isLeapYear y then 29 else 28)
  else if m = 4 || m = 6 || m = 9 || m = 11 then 30
  else 31

/-- Days from 1970-01-01 to year `y`, month `m`, day `d` (civil-calendar day
count; `y ≥ 1`). -/
def daysFromCivil (y m d : Nat) : Int :=
  let yy := if m ≤ 2 then y - 1 else y
  let era := yy / 400
  let yoe := yy % 400
  let mp := if m > 2 then m - 3 else m + 9
  let doy := (153 * mp + 2) / 5 + (d - 1)
  let doe := yoe * 365 + yoe / 4 - yoe / 100 + doy
  (era * 146097 + doe : Int) - 719468

/-- Value of a digit string (most significant first). -/
def digitsVal (ds : List Char) : Nat :=
  ds.foldl (fun a c => 10 * a + (c.toNat - 48)) 0

/-- Fractional-second suffix of `fromisoformat`: a decimal point (`.` or `,`)
followed by one to six digits, converted to microseconds (shorter fractions
are zero-padded, as CPython does).  Fractions longer than six digits are
outside the model. -/
def parseFracMicros : List Char → Option Nat
  | c :: ds =>
    if (c = '.' || c = ',') && !ds.isEmpty && ds.length ≤ 6 && ds.all Char.isDigit then
      some (digitsVal ds * 10 ^ (6 - ds.length))
    else none
  | _ => none

/-- Time-of-day grammar of CPython 3.11+ `fromisoformat` (extended and basic
formats): `HH`, `HH:MM`, `HHMM`, `HH:MM:SS`, `HHMMSS`, the last two with an
optional fractional-second suffix.  Returns hours, minutes, seconds and
microseconds. -/
def parseHMS : List Char → Option (Nat × Nat × Nat × Nat)
  | [h1, h2] => do
    let h ← num2 h1 h2
    if h ≤ 23 then pure (h, 0, 0, 0) else none
  | [h1, h2, ':', m1, m2] => do
    let h ← num2 h1 h2
    let m ← num2 m1 m2
    if h ≤ 23 && m ≤ 59 then pure (h, m, 0, 0) else none
  | [h1, h2, m1, m2] => do
    let h ← num2 h1 h2
    let m ← num2 m1 m2
    if h ≤ 23 && m ≤ 59 then pure (h, m, 0, 0) else none
  | h1 :: h2 :: ':' :: m1 :: m2 :: ':' :: s1 :: s2 :: rest => do
    let h ← num2 h1 h2
    let m ← num2 m1 m2
    let s ← num2 s1 s2
    let us ← if rest.isEmpty then pure 0 else parseFracMicros rest
    if h ≤ 23 && m ≤ 59 && s ≤ 59 then pure (h, m, s, us) else none
  | h1 :: h2 :: m1 :: m2 :: s1 :: s2 :: rest => do
    let h ← num2 h1 h2
    let m ← num2 m1 m2
    let s ← num2 s1 s2
    let us ← if rest.isEmpty then pure 0 else parseFracMicros rest
    if h ≤ 23 && m ≤ 59 && s ≤ 59 then pure (h, m, s, us) else none
  | _ => none

/-- Split the part of the string after the date and separator at the first
`+` or `-`, where the UTC offset begins (a valid time-of-day contains
neither character). -/
def splitOffset : List Char → List Char × Option (Char × List Char)
  | [] => ([], none)
  | c :: cs =>
    if c = '+' || c = '-' then ([], some (c, cs))
    else
      match splitOffset cs with
      | (t, o) => (c :: t, o)

/-- UTC offset of `fromisoformat` after the sign: the same grammar as the
time of day, converted to signed microseconds. -/
def parseOffsetMicros (sg : Char) (rest : List Char) : Option Int := do
  let (h, m, s, us) ← parseHMS rest
  let mag : Int := ((h * 3600 + m * 60 + s) * 1000000 + us : Nat)
  pure (if sg = '-' then -mag else mag)

/-- Outcome of `datetime.fromisoformat`: an aware datetime (offset present)
whose exact distance from the epoch is known in microseconds, a naive
datetime (no offset; `timestamp()` then depends on the process's local
timezone) carrying its civil time as microseconds-as-if-UTC, or a raised
`ValueError`. -/
inductive IsoParse where
  | aware (us : Int)
  | naive (us : Int)
  | fail
  deriving DecidableEq

/-- Models CPython 3.11+ `datetime.fromisoformat` on extended-format dates
`YYYY-MM-DD`, any single separator character, the time and offset grammars of
`parseHMS`/`parseOffsetMicros`, after the program has replaced `Z` by
`+00:00`.  Basic-format (`YYYYMMDD`), ordinal and week dates, and fractions
longer than six digits are outside the model and map to `fail`. -/
def fromisoResult (s : List Char) : IsoParse :=
  match s with
  | y1 :: y2 :: y3 :: y4 :: c1 :: m1 :: m2 :: c2 :: d1 :: d2 :: rest =>
    match num4 y1 y2 y3 y4, num2 m1 m2, num2 d1 d2 with
    | some y, some mo, some da =>
      if c1 = '-' && c2 = '-' && 1 ≤ y && 1 ≤ mo && mo ≤ 12 && 1 ≤ da
         && da ≤ daysInMonth y mo then
        let civil : Int := daysFromCivil y mo da * 86400000000
        match rest with
        | [] => .naive civil
        | _sep :: trest =>
          match splitOffset trest with
          | (tpart, none) =>
            match parseHMS tpart with
            | some (h, mi, se, us) =>
              .naive (civil + (((h * 3600 + mi * 60 + se) * 1000000 + us : Nat) : Int))
            | none => .fail
          | (tpart, some (sg, orest)) =>
            match parseHMS tpart, parseOffsetMicros sg orest with
            | some (h, mi, se, us), some ofs =>
              .aware (civil + (((h * 3600 + mi * 60 + se) * 1000000 + us : Nat) : Int) - ofs)
            | _, _ => .fail
      else .fail
    | _, _, _ => .fail
  | _ => .fail

/-- The local-timezone offset (microseconds) applied by `datetime.timestamp()`
to a naive datetime with the given civil microseconds.  The repository pins
no timezone and the container default is UTC, so the model fixes the offset
to zero; a non-UTC deployment would change only this one definition (and with
it only the naive, non-RFC3339 branch of the timestamp computation). -/
def localOffsetMicros (_civilUs : Int) : Int := 0

/-- Number of binary digits of `n`, computed with explicit fuel so that the
kernel can evaluate it (correct for all `n < 2 ^ 128`, far above every
nanosecond value the program can produce). -/
def bitLenAux : Nat → Nat → Nat
  | 0, _ => 0
  | f + 1, n => if n = 0 then 0 else bitLenAux f (n / 2) + 1

/-- Number of binary digits of `n` (for `n < 2 ^ 128`). -/
def bitLen (n : Nat) : Nat := bitLenAux 128 n

/-- Nearest integer to `p / q` with ties to even (`q > 0`). -/
def rnDiv (p q : Nat) : Nat :=
  let d := p / q
  let r := p % q
  if 2 * r < q then d
  else if q < 2 * r then d + 1
  else if d % 2 = 0 then d else d + 1

/-- Whether the rational `p / q` is at least `2 ^ l` (`p, q > 0`). -/
def ratGe2Pow (p q : Nat) (l : Int) : Bool :=
  if 0 ≤ l then q * 2 ^ l.toNat ≤ p else q ≤ p * 2 ^ (-l).toNat

/-- Floor of the base-2 logarithm of the positive rational `p / q`. -/
def floorLog2Rat (p q : Nat) : Int :=
  let l0 : Int := (bitLen p : Int) - (bitLen q : Int)
  if ratGe2Pow p q l0 then l0 else l0 - 1

/-- Round the positive rational `p / q` to the nearest IEEE-754 double (round
half to even; overflow and subnormals cannot occur at the magnitudes this
program produces).  The double's exact value is returned as a pair `(m, u)`
meaning `m * 2 ^ u`. -/
def rnRatToDouble (p q : Nat) : Nat × Int :=
  let u := floorLog2Rat p q - 52
  if 0 ≤ u then (rnDiv p (q * 2 ^ u.toNat), u)
  else (rnDiv (p * 2 ^ (-u).toNat) q, u)

/-- Models `int(dt.timestamp() * 1e9)` for a datetime lying exactly `us`
microseconds from the epoch.  `timestamp()` computes
`((days*86400 + seconds)*10**6 + microseconds) / 10**6` — an exact integer
numerator followed by one correctly rounded float division; the
multiplication by `1e9` rounds a second time; `int()` truncates toward
zero. -/
def floatNsOfMicros (us : Int) : Int :=
  if us = 0 then 0
  else
    let a := us.natAbs
    let md1 := rnRatToDouble a 1000000
    let md2 :=
      if 0 ≤ md1.2 then rnRatToDouble (md1.1 * 1000000000 * 2 ^ md1.2.toNat) 1
      else rnRatToDouble (md1.1 * 1000000000) (2 ^ (-md1.2).toNat)
    let mag := if 0 ≤ md2.2 then md2.1 * 2 ^ md2.2.toNat else md2.1 / 2 ^ (-md2.2).toNat
    if us < 0 then -(mag : Int) else (mag : Int)

/-- Python `timestamp.replace('Z', '+00:00')`: replace every occurrence of the
single-character substring `"Z"`. -/
def zReplace (s : List Char) : List Char :=
  s.flatMap (fun c => if c = 'Z' then "+00:00".data else [c])

/-- Timestamp computation of the `for log in logs` loop body (lines 42-56) for
a record that is a dict with field list `fields`: use `EdgeStartTimestamp` if
present, truthy, a string and parseable, otherwise fall back to
`int(time.time() * 1e9)` (the `now` argument). -/
def fieldsTimestamp (now : Nat) (fields : List (String × JsonVal)) : List Char :=
  match fields.lookup "EdgeStartTimestamp" with
  | some ts =>
    if truthy ts then
      match ts with
      | .str s =>
        match fromisoResult (zReplace s.data) with
        | .aware us => (toString (floatNsOfMicros us)).data
        | .naive us => (toString (floatNsOfMicros (us - localOffsetMicros us))).data
        | .fail => (toString now).data
      | _ => (toString now).data
    else (toString now).data
  | none => (toString now).data

/-- `log.get('EdgeStartTimestamp')` requires `log` to be a dict; on any other
parsed JSON value the attribute access raises (`AttributeError`), which
propagates out of `push_to_loki`. -/
def recordTimestamp (now : Nat) (log : JsonVal) : Except String (List Char) :=
  match log with
  | .obj fields => .ok (fieldsTimestamp now fields)
  | _ => .error "object has no attribute get"

/-- The `values` accumulation loop of `push_to_loki` (lines 41-58): one
`[ts_ns, json.dumps(log)]` pair per record, in input order; raises as soon as
one record is not a dict. -/
def buildValues (now : Nat) (dumps : JsonVal → List Char) :
    List JsonVal → Except String (List (List Char × List Char))
  | [] => .ok []
  | log :: rest =>
    match recordTimestamp now log with
    | .error e => .error e
    | .ok ts =>
      match buildValues now dumps rest with
      | .error e => .error e
      | .ok vs => .ok ((ts, dumps log) :: vs)

/-- `push_to_loki` (lines 29-78).  Returns the reported success flag together
with the list of HTTP push requests actually performed (the effect trace), or
an error when the loop raised.  `requests.post` is `post`; `raise_for_status`
raises exactly for status codes in `[400, 600)`, and every raised
`RequestException` (HTTP error or network failure) yields `False`. -/
def push_to_loki (post : PushPayload → Except String Nat) (now : Nat)
    (dumps : JsonVal → List Char) (logs : List JsonVal) (labels : Option Labels) :
    Except String (Bool × List PushPayload) :=
  match logs with
  | [] => .ok (true, [])
  | _ :: _ =>
    let lbs := labels.getD [("job", JsonVal.str "cloudflare"), ("source", JsonVal.str "logpush")]
    match buildValues now dumps logs with
    | .error e => .error e
    | .ok vals =>
      let payload : PushPayload := { streams := [{ stream := lbs, values := vals }] }
      match post payload with
      | .ok status =>
        if 400 ≤ status ∧ status < 600 then .ok (false, [payload])
        else .ok (true, [payload])
      | .error _ => .ok (false, [payload])

/-! ### The request pipeline (`receive_logs`, lines 90-175) -/

/-- The auth rejection condition (lines 104-110): a non-default token is
configured and neither the `Authorization` header equals `Bearer <token>` nor
the token occurs as a substring of the `token` query parameter. -/
def authRejected (cfg : Config) (req : HttpRequest) : Bool :=
  !(cfg.authToken == "changeme")
  && !((req.authHeader.getD "") == "Bearer " ++ cfg.authToken)
  && !(containsSeq cfg.authToken.data ((req.tokenArg.getD "").data))

/-- The decode step (lines 120-129): try `gzip.decompress` then UTF-8; on
`BadGzipFile` or any other failure (including UTF-8 failure of the
decompressed bytes) fall back to decoding the raw bytes, whose own failure
propagates to the caller. -/
def decodeBody (gz : List Nat → Except GzipError (List Nat))
    (utf8 : List Nat → Except String (List Char)) (data : List Nat) :
    Except String (List Char) :=
  match gz data with
  | .ok dec =>
    match utf8 dec with
    | .ok s => .ok s
    | .error _ => utf8 data
  | .error _ => utf8 data

/-- The literal probe substring `{"content":"tests"}` checked at line 132. -/
def probeLit : List Char := "\x7b\"content\":\"tests\"\x7d".data

/-- The NDJSON parsing loop (lines 136-147): strip the whole text, split on
newlines, strip each line, skip blank lines, append each line that
`json.loads` accepts, silently drop lines that raise `JSONDecodeError`. -/
def parseNDJSON (loads : List Char → Option JsonVal) (content : List Char) : List JsonVal :=
  (splitNewline (pyStrip content)).foldl
    (fun logs rawLine =>
      let line := pyStrip rawLine
      if line = [] then logs
      else
        match loads line with
        | some v => logs ++ [v]
        | none => logs)
    []

/-- Label derivation from the first parsed record (lines 153-162).  The
Python membership test `'ClientRequestHost' in sample_log` is a key test on a
dict, a substring test on a string and an element test on a list, and raises
`TypeError` on any non-container; indexing a string or list with a string key
also raises. -/
def deriveLabels (sample : JsonVal) : Except String Labels :=
  let base : Labels := [("job", JsonVal.str "cloudflare"), ("source", JsonVal.str "logpush")]
  match sample with
  | .obj fields =>
    match fields.lookup "ClientRequestHost" with
    | some v => .ok (base ++ [("host", v)])
    | none => .ok base
  | .str s =>
    if containsSeq ("ClientRequestHost").data s.data then
      .error "string indices must be integers"
    else .ok base
  | .arr elems =>
    if elems.any (fun j => match j with | .str t => t == "ClientRequestHost" | _ => false) then
      .error "list indices must be integers or slices, not str"
    else .ok base
  | .num _ => .error "argument of type int is not iterable"
  | .bool _ => .error "argument of type bool is not iterable"
  | .null => .error "argument of type NoneType is not iterable"

/-- Lines 131-171 of `receive_logs`: everything after a successful decode.
Probe check, NDJSON parse, empty-batch short circuit, label derivation,
forward, and mapping of the outcome (or of a raised exception, caught by the
top-level handler at lines 173-175) to a JSON response. -/
def handleContent (env : Env) (content : List Char) : Response × List PushPayload :=
  if containsSeq probeLit content then
    ((JsonVal.obj [("text", JsonVal.str "Success"), ("code", JsonVal.num 0)], 200), [])
  else
    match parseNDJSON env.loads content with
    | [] => ((JsonVal.obj [("status", JsonVal.str "ok"), ("processed", JsonVal.num 0)], 200), [])
    | l0 :: rest =>
      match deriveLabels l0 with
      | .error msg => ((JsonVal.obj [("error", JsonVal.str msg)], 500), [])
      | .ok lbs =>
        match push_to_loki env.post env.now env.dumps (l0 :: rest) (some lbs) with
        | .error msg => ((JsonVal.obj [("error", JsonVal.str msg)], 500), [])
        | .ok (true, tr) =>
          ((JsonVal.obj [("status", JsonVal.str "ok"),
                         ("processed", JsonVal.num ((l0 :: rest).length : Int))], 200), tr)
        | .ok (false, tr) =>
          ((JsonVal.obj [("error", JsonVal.str "Failed to push to Loki")], 500), tr)

/-- The full request handler `receive_logs` (lines 90-175), returning the
HTTP response together with the trace of outbound push requests.  GET short
circuits; then auth; then the empty-body 400; then decode (whose failure is
caught by the top-level handler and reported as a 500); then `handleContent`. -/
def receive_logs (cfg : Config) (env : Env) (req : HttpRequest) :
    Response × List PushPayload :=
  if req.method = HttpMethod.get then
    ((JsonVal.obj [("status", JsonVal.str "ok"),
                   ("message", JsonVal.str "Cloudflare Logpush receiver ready")], 200), [])
  else if authRejected cfg req then
    ((JsonVal.obj [("error", JsonVal.str "Unauthorized")], 401), [])
  else if req.body = [] then
    ((JsonVal.obj [("error", JsonVal.str "No data received")], 400), [])
  else
    match decodeBody env.gz env.utf8 req.body with
    | .error msg => ((JsonVal.obj [("error", JsonVal.str msg)], 500), [])
    | .ok content => handleContent env content

/-! ### Concrete instances used by witnesses and counterexamples -/

/-- A gzip model under which every body is non-gzip (`BadGzipFile`), i.e. the
plain, uncompressed transport path. -/
def gzFail : List Nat → Except GzipError (List Nat) := fun _ => .error .badGzipFile

/-- A concrete UTF-8 decoder: accepts pure-ASCII byte lists, raises
(`UnicodeDecodeError`) otherwise.  A faithful instance of `bytes.decode`
restricted to the inputs the witnesses use. -/
def asciiDecode : List Nat → Except String (List Char) := fun bs =>
  if bs.all (fun b => b < 128) then .ok (bs.map (fun b => Char.ofNat b))
  else .error "utf-8 codec cannot decode byte"

/-- A concrete `json.loads` instance accepting exactly the document `1`. -/
def loadsOne : List Char → Option JsonVal :=
  fun l => if l = ['1'] then some (JsonVal.num 1) else none

/-- A concrete `json.loads` instance accepting exactly the document mapped to
the empty JSON object (stands for `{}`). -/
def loadsObj : List Char → Option JsonVal :=
  fun l => if l = ['r'] then some (JsonVal.obj []) else none

/-- Default witness environment: plain bodies, ASCII UTF-8, `loadsOne`,
trivial `dumps`, unreachable backend. -/
def env0 : Env :=
  { gz := gzFail, utf8 := asciiDecode, loads := loadsOne,
    dumps := fun _ => [], post := fun _ => .error "connection refused", now := 0 }

/-- A backend that always answers HTTP 502. -/
def post502 : PushPayload → Except String Nat := fun _ => .ok 502

/-- Witness environment whose parses yield one empty-object record and whose
backend answers 502. -/
def env502 : Env :=
  { gz := gzFail, utf8 := asciiDecode, loads := loadsObj,
    dumps := fun _ => [], post := post502, now := 0 }

/-- A gzip model that decompresses the single compressed body `[0]` to the
byte `49` (ASCII `'1'`) and reports everything else as non-gzip. -/
def gzW : List Nat → Except GzipError (List Nat) :=
  fun b => if b = [0] then .ok [49] else .error .badGzipFile

/-- Witness environment for the gzip/plain round-trip comparison. -/
def envW : Env :=
  { gz := gzW, utf8 := asciiDecode, loads := loadsOne,
    dumps := fun _ => [], post := fun _ => .error "connection refused", now := 0 }

/-! ### NDJSON serialization shape (for the round-trip claim) -/

/-- Join lines with single newline characters (the shape of an NDJSON
document, one serialized record per line). -/
def joinLines : List (List Char) → List Char
  | [] => []
  | [l] => l
  | l :: ls => l ++ '\n' :: joinLines ls

/-- A line of an NDJSON serialization of record `r` under the abstract
`json.loads`: non-empty, no surrounding whitespace, newline-free, and parsed
back to `r`.  Every `json.dumps` output line has this shape. -/
def goodLine (loads : List Char → Option JsonVal) (l : List Char) (r : JsonVal) : Prop :=
  l ≠ [] ∧ (∀ c, l.head? = some c → isPyWs c = false)
    ∧ (∀ c, l.reverse.head? = some c → isPyWs c = false)
    ∧ '\n' ∉ l ∧ loads l = some r

/-! ## Shared lemmas about the pipeline -/

theorem receive_logs_post_decoded (cfg : Config) (env : Env) (req : HttpRequest)
    (content : List Char) (hm : req.method = HttpMethod.post)
    (ha : authRejected cfg req = false) (hb : req.body ≠ [])
    (hd : decodeBody env.gz env.utf8 req.body = .ok content) :
    receive_logs cfg env req = handleContent env content := by
  unfold receive_logs
  rw [hm, ha, hd, if_neg (by simp), if_neg (by simp), if_neg hb]

theorem handleContent_probe (env : Env) (content : List Char)
    (hp : containsSeq probeLit content = true) :
    handleContent env content
      = ((JsonVal.obj [("text", JsonVal.str "Success"), ("code", JsonVal.num 0)], 200), []) := by
  unfold handleContent
  rw [hp, if_pos rfl]

theorem handleContent_status (env : Env) (content : List Char) :
    (handleContent env content).1.2 = 200 ∨ (handleContent env content).1.2 = 500 := by
  unfold handleContent
  split
  · left; rfl
  · split
    · left; rfl
    · split
      · right; rfl
      · split
        · right; rfl
        · left; rfl
        · right; rfl

theorem receive_logs_status_ne_401 (cfg : Config) (env : Env) (req : HttpRequest)
    (ha : authRejected cfg req = false) : (receive_logs cfg env req).1.2 ≠ 401 := by
  unfold receive_logs
  rw [ha]
  split
  · simp
  · rw [if_neg (by simp)]
    split
    · simp
    · split
      · simp
      · rcases handleContent_status env _ with h | h <;> rw [h] <;> simp

theorem parseNDJSON_eq_filterMap (loads : List Char → Option JsonVal) (content : List Char) :
    parseNDJSON loads content
      = (splitNewline (pyStrip content)).filterMap
          (fun rawLine => if pyStrip rawLine = [] then none else loads (pyStrip rawLine)) := by
  unfold parseNDJSON
  generalize splitNewline (pyStrip content) = lines
  suffices h : ∀ (lines : List (List Char)) (acc : List JsonVal),
      lines.foldl
        (fun logs rawLine =>
          let line := pyStrip rawLine
          if line = [] then logs
          else
            match loads line with
            | some v => logs ++ [v]
            | none => logs)
        acc
      = acc ++ lines.filterMap
          (fun rawLine => if pyStrip rawLine = [] then none else loads (pyStrip rawLine)) by
    simpa using h lines []
  intro lines
  induction lines with
  | nil => intro acc; simp
  | cons r rs ih =>
    intro acc
    simp only [List.foldl_cons, List.filterMap_cons]
    by_cases hempty : pyStrip r = []
    · simp only [hempty, if_pos rfl, ih]
      simp
    · rw [if_neg hempty, if_neg hempty]
      cases hl : loads (pyStrip r) with
      | none => simp [ih]
      | some v => simp [ih]

/-! ## Claim C1 -/

/-- C1 (amended): a POST whose non-empty body fails to decode (the raw UTF-8
decode raises after the gzip fallback chain) is answered by the top-level
exception handler with status 500 — not a 400-class response — carrying the
decode error message in the body, and no backend call is made; the decode
error is surfaced, not swallowed. -/
theorem c1_decode_error_500 (cfg : Config) (env : Env) (req : HttpRequest) (msg : String)
    (hm : req.method = HttpMethod.post) (ha : authRejected cfg req = false)
    (hb : req.body ≠ []) (hd : decodeBody env.gz env.utf8 req.body = .error msg) :
    receive_logs cfg env req = ((JsonVal.obj [("error", JsonVal.str msg)], 500), []) := by
  unfold receive_logs
  rw [hm, ha, hd, if_neg (by simp), if_neg (by simp), if_neg hb]

/-- C1 counterexample: the single byte `0xFF` is not gzip and not UTF-8, its
decode raises, and the handler answers 500 — which is not in the 400 class
the claim requires. -/
theorem c1_counterexample :
    decodeBody gzFail asciiDecode [255] = .error "utf-8 codec cannot decode byte"
    ∧ (receive_logs ⟨"changeme"⟩ env0 ⟨HttpMethod.post, none, none, [255]⟩).1.2 = 500
    ∧ ¬(400 ≤ (receive_logs ⟨"changeme"⟩ env0 ⟨HttpMethod.post, none, none, [255]⟩).1.2
         ∧ (receive_logs ⟨"changeme"⟩ env0 ⟨HttpMethod.post, none, none, [255]⟩).1.2 < 500) := by
  refine ⟨rfl, rfl, ?_⟩
  intro h
  exact absurd (show (500 : Nat) < 500 from by
    have : (receive_logs ⟨"changeme"⟩ env0 ⟨HttpMethod.post, none, none, [255]⟩).1.2 = 500 := rfl
    omega) (by omega)

theorem c1_witness :
    receive_logs ⟨"changeme"⟩ env0 ⟨HttpMethod.post, none, none, [255]⟩
      = ((JsonVal.obj [("error", JsonVal.str "utf-8 codec cannot decode byte")], 500), []) :=
  c1_decode_error_500 ⟨"changeme"⟩ env0 ⟨HttpMethod.post, none, none, [255]⟩
    "utf-8 codec cannot decode byte" rfl rfl (by decide) rfl

/-! ## Claim C3 -/

/-- C3: the NDJSON parser equals, line for line, the filterMap over the
newline-split, stripped lines that skips blank lines and lines `json.loads`
rejects and keeps parsed values in input line order; and an input whose lines
are all blank or all malformed yields the empty record list. -/
theorem c3_parse_lines (loads : List Char → Option JsonVal) (content : List Char) :
    parseNDJSON loads content
      = (splitNewline (pyStrip content)).filterMap
          (fun rawLine => if pyStrip rawLine = [] then none else loads (pyStrip rawLine))
    ∧ ((∀ l ∈ splitNewline (pyStrip content),
          pyStrip l = [] ∨ (loads (pyStrip l)).isNone = true) →
        parseNDJSON loads content = []) := by
  refine ⟨parseNDJSON_eq_filterMap loads content, fun hall => ?_⟩
  rw [parseNDJSON_eq_filterMap]
  rw [List.filterMap_eq_nil_iff]
  intro l hl
  by_cases he : pyStrip l = []
  · rw [if_pos he]
  · rw [if_neg he]
    rcases hall l hl with h | h
    · exact absurd h he
    · exact Option.eq_none_of_isNone h

theorem c3_witness :
    parseNDJSON loadsOne ("x\n \n1\n1 ".data) = [JsonVal.num 1, JsonVal.num 1]
    ∧ parseNDJSON loadsOne ("x\n \n".data) = [] := by
  constructor
  · rw [(c3_parse_lines loadsOne ("x\n \n1\n1 ".data)).1]; rfl
  · exact (c3_parse_lines loadsOne ("x\n \n".data)).2 (by decide)

/-! ## Claim C4 -/

/-- C4: any POST body (gzip-compressed or plain) whose decoded text contains
the literal probe substring is acknowledged before line-splitting with status
200 and body exactly `text = "Success", code = 0`, with no records parsed
and no backend call performed. -/
theorem c4_probe (cfg : Config) (env : Env) (req : HttpRequest) (content : List Char)
    (hm : req.method = HttpMethod.post) (ha : authRejected cfg req = false)
    (hb : req.body ≠ []) (hd : decodeBody env.gz env.utf8 req.body = .ok content)
    (hp : containsSeq probeLit content = true) :
    receive_logs cfg env req
      = ((JsonVal.obj [("text", JsonVal.str "Success"), ("code", JsonVal.num 0)], 200), []) := by
  rw [receive_logs_post_decoded cfg env req content hm ha hb hd,
      handleContent_probe env content hp]

theorem c4_witness :
    receive_logs ⟨"changeme"⟩ env0
        ⟨HttpMethod.post, none, none, probeLit.map Char.toNat⟩
      = ((JsonVal.obj [("text", JsonVal.str "Success"), ("code", JsonVal.num 0)], 200), []) :=
  c4_probe ⟨"changeme"⟩ env0 ⟨HttpMethod.post, none, none, probeLit.map Char.toNat⟩
    probeLit rfl rfl (by decide) rfl (by decide)

/-! ## Claim C2 -/

/-- C2: with a non-default token every POST is rejected with 401 — touching
neither decoder, parser nor backend (the response is the same for every
environment and carries an empty push trace) — unless the `Authorization`
header is exactly `Bearer <token>` or the token is a substring of the `token`
query parameter; with the default placeholder token the check is skipped and
no request (in particular none without an `Authorization` header) is answered
with 401. -/
theorem c2_auth_gate (cfg : Config) (req : HttpRequest) (hm : req.method = HttpMethod.post) :
    (authRejected cfg req = true ↔
      (cfg.authToken ≠ "changeme"
        ∧ req.authHeader.getD "" ≠ "Bearer " ++ cfg.authToken
        ∧ containsSeq cfg.authToken.data ((req.tokenArg.getD "").data) = false))
    ∧ (∀ env : Env, authRejected cfg req = true →
        receive_logs cfg env req = ((JsonVal.obj [("error", JsonVal.str "Unauthorized")], 401), []))
    ∧ (∀ env : Env, authRejected cfg req = false → (receive_logs cfg env req).1.2 ≠ 401)
    ∧ (cfg.authToken = "changeme" → authRejected cfg req = false) := by
  refine ⟨?_, ?_, ?_, ?_⟩
  · unfold authRejected
    simp [Bool.and_eq_true, Bool.not_eq_true', and_assoc]
  · intro env h
    unfold receive_logs
    rw [hm, h, if_neg (by simp), if_pos rfl]
  · intro env h
    exact receive_logs_status_ne_401 cfg env req h
  · intro h
    unfold authRejected
    rw [h]
    simp

theorem c2_witness :
    receive_logs ⟨"s3cret"⟩ env0 ⟨HttpMethod.post, some "Bearer wrong", none, [49]⟩
      = ((JsonVal.obj [("error", JsonVal.str "Unauthorized")], 401), [])
    ∧ (receive_logs ⟨"changeme"⟩ env0 ⟨HttpMethod.post, none, none, [49]⟩).1.2 ≠ 401 :=
  ⟨(c2_auth_gate ⟨"s3cret"⟩ ⟨HttpMethod.post, some "Bearer wrong", none, [49]⟩ rfl).2.1
      env0 (by decide),
   (c2_auth_gate ⟨"changeme"⟩ ⟨HttpMethod.post, none, none, [49]⟩ rfl).2.2.1
      env0 (by decide)⟩

/-! ## Claim C8 -/

/-- C8: `push_to_loki` on an empty record list reports success without
performing any HTTP request (for every backend), and a POST whose parse
yields zero records is answered 200 with `status = "ok", processed = 0` and
an empty push trace — the forwarder is never invoked. -/
theorem c8_empty_batch :
    (∀ (post : PushPayload → Except String Nat) (now : Nat) (dumps : JsonVal → List Char)
        (labels : Option Labels), push_to_loki post now dumps [] labels = .ok (true, []))
    ∧ (∀ (cfg : Config) (env : Env) (req : HttpRequest) (content : List Char),
        req.method = HttpMethod.post → authRejected cfg req = false →
        req.body ≠ [] → decodeBody env.gz env.utf8 req.body = .ok content →
        containsSeq probeLit content = false → parseNDJSON env.loads content = [] →
        receive_logs cfg env req
          = ((JsonVal.obj [("status", JsonVal.str "ok"), ("processed", JsonVal.num 0)], 200), [])) := by
  constructor
  · intro post now dumps labels
    rfl
  · intro cfg env req content hm ha hb hd hp hparse
    rw [receive_logs_post_decoded cfg env req content hm ha hb hd]
    unfold handleContent
    rw [hp, if_neg (by simp), hparse]

theorem c8_witness :
    push_to_loki post502 0 (fun _ => []) [] none = .ok (true, [])
    ∧ receive_logs ⟨"changeme"⟩ env0 ⟨HttpMethod.post, none, none, [120, 10, 32]⟩
        = ((JsonVal.obj [("status", JsonVal.str "ok"), ("processed", JsonVal.num 0)], 200), []) :=
  ⟨c8_empty_batch.1 post502 0 (fun _ => []) none,
   c8_empty_batch.2 ⟨"changeme"⟩ env0 ⟨HttpMethod.post, none, none, [120, 10, 32]⟩
     ("x\n ".data) rfl rfl (by decide) rfl (by decide) rfl⟩

/-! ## Claim C5 -/

theorem buildValues_objs (now : Nat) (dumps : JsonVal → List Char)
    (fs : List (List (String × JsonVal))) :
    buildValues now dumps (fs.map JsonVal.obj)
      = .ok (fs.map fun f => (fieldsTimestamp now f, dumps (JsonVal.obj f))) := by
  induction fs with
  | nil => rfl
  | cons f fs ih =>
    simp only [List.map_cons, buildValues, recordTimestamp, ih]

theorem push_to_loki_cons (post : PushPayload → Except String Nat) (now : Nat)
    (dumps : JsonVal → List Char) (l : JsonVal) (ls : List JsonVal) (labels : Labels)
    (vals : List (List Char × List Char))
    (hv : buildValues now dumps (l :: ls) = .ok vals) :
    push_to_loki post now dumps (l :: ls) (some labels)
      = match post (mkPayload labels vals) with
        | .ok status =>
          if 400 ≤ status ∧ status < 600 then .ok (false, [mkPayload labels vals])
          else .ok (true, [mkPayload labels vals])
        | .error _ => .ok (false, [mkPayload labels vals]) := by
  unfold push_to_loki
  rw [hv]
  rfl

/-- C5: for a non-empty batch of N records (dicts, per the spec's LogRecord
data model), each push call sends exactly one stream whose label set is the
one passed in, whose values list has length N and pairs each record's
timestamp string with its `json.dumps` serialization in input order; and the
derived label set always holds the fixed `job`/`source` values, extended with
a `host` label copied from the first record exactly when that record has a
`ClientRequestHost` field. -/
theorem c5_single_stream (post : PushPayload → Except String Nat) (now : Nat)
    (dumps : JsonVal → List Char) (labels : Labels)
    (fs : List (List (String × JsonVal))) (h : fs ≠ []) :
    (∃ b, push_to_loki post now dumps (fs.map JsonVal.obj) (some labels)
        = .ok (b, [mkPayload labels
            (fs.map (fun f => (fieldsTimestamp now f, dumps (JsonVal.obj f))))]))
    ∧ (fs.map fun f => (fieldsTimestamp now f, dumps (JsonVal.obj f))).length = fs.length
    ∧ (∀ (f : List (String × JsonVal)) (v : JsonVal), f.lookup "ClientRequestHost" = some v →
        deriveLabels (JsonVal.obj f)
          = .ok [("job", JsonVal.str "cloudflare"), ("source", JsonVal.str "logpush"),
                 ("host", v)])
    ∧ (∀ f : List (String × JsonVal), f.lookup "ClientRequestHost" = none →
        deriveLabels (JsonVal.obj f)
          = .ok [("job", JsonVal.str "cloudflare"), ("source", JsonVal.str "logpush")]) := by
  refine ⟨?_, by simp, ?_, ?_⟩
  · cases fs with
    | nil => exact absurd rfl h
    | cons f fs =>
      have hv := buildValues_objs now dumps (f :: fs)
      rw [List.map_cons] at hv
      rw [List.map_cons]
      rw [push_to_loki_cons post now dumps _ _ labels _ hv]
      cases hpost : post (mkPayload labels
          ((f :: fs).map (fun g => (fieldsTimestamp now g, dumps (JsonVal.obj g))))) with
      | ok status =>
        by_cases hs : 400 ≤ status ∧ status < 600
        · exact ⟨false, by simp [hs]⟩
        · exact ⟨true, by simp [hs]⟩
      | error e => exact ⟨false, rfl⟩
  · intro f v hv
    simp [deriveLabels, hv]
  · intro f hv
    simp [deriveLabels, hv]

theorem c5_witness :
    ∃ b, push_to_loki post502 0 (fun _ => ['d'])
        ([[("ClientRequestHost", JsonVal.str "example.com")]].map JsonVal.obj)
        (some [("job", JsonVal.str "cloudflare"), ("source", JsonVal.str "logpush"),
               ("host", JsonVal.str "example.com")])
      = .ok (b, [mkPayload
            [("job", JsonVal.str "cloudflare"), ("source", JsonVal.str "logpush"),
             ("host", JsonVal.str "example.com")]
            ([[("ClientRequestHost", JsonVal.str "example.com")]].map
              (fun f => (fieldsTimestamp 0 f, (fun _ => ['d']) (JsonVal.obj f))))]) :=
  (c5_single_stream post502 0 (fun _ => ['d'])
    [("job", JsonVal.str "cloudflare"), ("source", JsonVal.str "logpush"),
     ("host", JsonVal.str "example.com")]
    [[("ClientRequestHost", JsonVal.str "example.com")]] (List.cons_ne_nil _ _)).1

/-! ## Claim C7 -/

/-- C7 (amended): for a non-empty batch of dict records the push performs
exactly one HTTP request and returns true exactly when the backend delivered
a final status outside `[400, 600)` — every 2xx, but also e.g. a 3xx, since
`raise_for_status` only raises for 4xx/5xx; any HTTP error status or
network-level failure yields false without raising and without retrying; and
a false push result makes the handler answer 500 with an error body instead
of throwing. -/
theorem c7_push_status :
    (∀ (post : PushPayload → Except String Nat) (now : Nat) (dumps : JsonVal → List Char)
        (labels : Labels) (fs : List (List (String × JsonVal))) (st : Nat), fs ≠ [] →
      post (mkPayload labels
          (fs.map (fun f => (fieldsTimestamp now f, dumps (JsonVal.obj f))))) = .ok st →
      400 ≤ st → st < 600 →
      push_to_loki post now dumps (fs.map JsonVal.obj) (some labels)
        = .ok (false, [mkPayload labels
            (fs.map (fun f => (fieldsTimestamp now f, dumps (JsonVal.obj f))))]))
    ∧ (∀ (post : PushPayload → Except String Nat) (now : Nat) (dumps : JsonVal → List Char)
        (labels : Labels) (fs : List (List (String × JsonVal))) (st : Nat), fs ≠ [] →
      post (mkPayload labels
          (fs.map (fun f => (fieldsTimestamp now f, dumps (JsonVal.obj f))))) = .ok st →
      ¬(400 ≤ st ∧ st < 600) →
      push_to_loki post now dumps (fs.map JsonVal.obj) (some labels)
        = .ok (true, [mkPayload labels
            (fs.map (fun f => (fieldsTimestamp now f, dumps (JsonVal.obj f))))]))
    ∧ (∀ (post : PushPayload → Except String Nat) (now : Nat) (dumps : JsonVal → List Char)
        (labels : Labels) (fs : List (List (String × JsonVal))) (e : String), fs ≠ [] →
      post (mkPayload labels
          (fs.map (fun f => (fieldsTimestamp now f, dumps (JsonVal.obj f))))) = .error e →
      push_to_loki post now dumps (fs.map JsonVal.obj) (some labels)
        = .ok (false, [mkPayload labels
            (fs.map (fun f => (fieldsTimestamp now f, dumps (JsonVal.obj f))))]))
    ∧ (∀ (cfg : Config) (env : Env) (req : HttpRequest) (content : List Char)
        (l0 : JsonVal) (rest : List JsonVal) (lbs : Labels) (tr : List PushPayload),
      req.method = HttpMethod.post → authRejected cfg req = false →
      req.body ≠ [] → decodeBody env.gz env.utf8 req.body = .ok content →
      containsSeq probeLit content = false →
      parseNDJSON env.loads content = l0 :: rest →
      deriveLabels l0 = .ok lbs →
      push_to_loki env.post env.now env.dumps (l0 :: rest) (some lbs) = .ok (false, tr) →
      receive_logs cfg env req
        = ((JsonVal.obj [("error", JsonVal.str "Failed to push to Loki")], 500), tr)) := by
  refine ⟨?_, ?_, ?_, ?_⟩
  · intro post now dumps labels fs st h hpost h4 h6
    cases fs with
    | nil => exact absurd rfl h
    | cons f fs =>
      have hv := buildValues_objs now dumps (f :: fs)
      rw [List.map_cons] at hv
      rw [List.map_cons, push_to_loki_cons post now dumps _ _ labels _ hv, hpost]
      simp [h4, h6]
  · intro post now dumps labels fs st h hpost hs
    cases fs with
    | nil => exact absurd rfl h
    | cons f fs =>
      have hv := buildValues_objs now dumps (f :: fs)
      rw [List.map_cons] at hv
      rw [List.map_cons, push_to_loki_cons post now dumps _ _ labels _ hv, hpost]
      simp [hs]
  · intro post now dumps labels fs e h hpost
    cases fs with
    | nil => exact absurd rfl h
    | cons f fs =>
      have hv := buildValues_objs now dumps (f :: fs)
      rw [List.map_cons] at hv
      rw [List.map_cons, push_to_loki_cons post now dumps _ _ labels _ hv, hpost]
  · intro cfg env req content l0 rest lbs tr hm ha hb hd hp hparse hlab hpush
    rw [receive_logs_post_decoded cfg env req content hm ha hb hd]
    unfold handleContent
    rw [hp]
    simp only [Bool.false_eq_true, if_false, hparse, hlab, hpush]

/-- C7 counterexample: a backend whose final response status is 300 (not a
2xx) still makes `push_to_loki` return true, because `raise_for_status` only
raises for statuses in `[400, 600)`. -/
theorem c7_counterexample :
    push_to_loki (fun _ => Except.ok 300) 0 (fun _ => []) [JsonVal.obj []] (some [])
      = .ok (true, [mkPayload [] [("0".data, [])]])
    ∧ ¬(200 ≤ 300 ∧ (300 : Nat) < 300) :=
  ⟨rfl, by omega⟩

theorem c7_witness :
    push_to_loki post502 0 (fun _ => []) ([[]].map JsonVal.obj) (some [])
      = .ok (false, [mkPayload []
          ([[]].map (fun f => (fieldsTimestamp 0 f, (fun _ => ([] : List Char)) (JsonVal.obj f))))])
    ∧ receive_logs ⟨"changeme"⟩ env502 ⟨HttpMethod.post, none, none, [114]⟩
        = ((JsonVal.obj [("error", JsonVal.str "Failed to push to Loki")], 500),
           [mkPayload [("job", JsonVal.str "cloudflare"), ("source", JsonVal.str "logpush")]
             [(['0'], [])]]) := by
  constructor
  · exact c7_push_status.1 post502 0 (fun _ => []) [] [[]] 502 (List.cons_ne_nil _ _) rfl
      (by omega) (by omega)
  · exact c7_push_status.2.2.2 ⟨"changeme"⟩ env502 ⟨HttpMethod.post, none, none, [114]⟩
      ("r".data) (JsonVal.obj []) []
      [("job", JsonVal.str "cloudflare"), ("source", JsonVal.str "logpush")]
      [mkPayload [("job", JsonVal.str "cloudflare"), ("source", JsonVal.str "logpush")]
        [(['0'], [])]]
      rfl rfl (by decide) rfl (by decide) rfl rfl rfl

/-! ## Claim C10 -/

/-- C10: when the first parsed record is a bare number, boolean or null, the
membership test of the label deriver raises `TypeError`, the request is
answered by the top-level error path with status 500 and the raised message,
and no records are forwarded — even though every line parsed successfully. -/
theorem c10_nonobject_first (cfg : Config) (env : Env) (req : HttpRequest)
    (content : List Char) (l0 : JsonVal) (rest : List JsonVal) (n : Int) (bv : Bool)
    (hm : req.method = HttpMethod.post) (ha : authRejected cfg req = false)
    (hb : req.body ≠ []) (hd : decodeBody env.gz env.utf8 req.body = .ok content)
    (hp : containsSeq probeLit content = false)
    (hparse : parseNDJSON env.loads content = l0 :: rest)
    (hl : l0 = JsonVal.num n ∨ l0 = JsonVal.bool bv ∨ l0 = JsonVal.null) :
    ∃ msg, deriveLabels l0 = .error msg
      ∧ receive_logs cfg env req = ((JsonVal.obj [("error", JsonVal.str msg)], 500), []) := by
  rw [receive_logs_post_decoded cfg env req content hm ha hb hd]
  unfold handleContent
  rw [hp]
  rcases hl with h | h | h <;> subst h <;>
    exact ⟨_, rfl, by simp only [Bool.false_eq_true, if_false, hparse, deriveLabels]⟩

theorem c10_witness :
    ∃ msg, deriveLabels (JsonVal.num 1) = .error msg
      ∧ receive_logs ⟨"changeme"⟩ env0 ⟨HttpMethod.post, none, none, [49]⟩
          = ((JsonVal.obj [("error", JsonVal.str msg)], 500), []) :=
  c10_nonobject_first ⟨"changeme"⟩ env0 ⟨HttpMethod.post, none, none, [49]⟩
    ("1".data) (JsonVal.num 1) [] 1 false rfl rfl (by decide) rfl (by decide) rfl
    (Or.inl rfl)

/-! ## Claim C6 -/

theorem head?_append_left {α : Type} (a b : List α) (h : a ≠ []) :
    (a ++ b).head? = a.head? := by
  cases a with
  | nil => exact absurd rfl h
  | cons x xs => rfl

theorem dropWhile_eq_self_of_head (p : Char → Bool) (l : List Char)
    (h : ∀ c, l.head? = some c → p c = false) : l.dropWhile p = l := by
  cases l with
  | nil => rfl
  | cons c cs =>
    rw [List.dropWhile_cons, h c rfl]
    simp

theorem pyStrip_eq_self (l : List Char)
    (hh : ∀ c, l.head? = some c → isPyWs c = false)
    (hr : ∀ c, l.reverse.head? = some c → isPyWs c = false) : pyStrip l = l := by
  unfold pyStrip
  rw [dropWhile_eq_self_of_head _ _ hh, dropWhile_eq_self_of_head _ _ hr, List.reverse_reverse]

theorem joinLines_ne_nil (l : List Char) (ls : List (List Char)) (h : l ≠ []) :
    joinLines (l :: ls) ≠ [] := by
  cases ls with
  | nil => simpa [joinLines] using h
  | cons l2 ls2 =>
    cases l with
    | nil => exact absurd rfl h
    | cons c cs => simp [joinLines]

theorem joinLines_head? (l : List Char) (ls : List (List Char)) (h : l ≠ []) :
    (joinLines (l :: ls)).head? = l.head? := by
  cases ls with
  | nil => rfl
  | cons l2 ls2 =>
    show (l ++ '\n' :: joinLines (l2 :: ls2)).head? = l.head?
    exact head?_append_left _ _ h

theorem joinLines_reverse_head (lines : List (List Char)) (h : lines ≠ [])
    (hne : ∀ l ∈ lines, l ≠ [])
    (hws : ∀ l ∈ lines, ∀ c, l.reverse.head? = some c → isPyWs c = false) :
    ∀ c, (joinLines lines).reverse.head? = some c → isPyWs c = false := by
  induction lines with
  | nil => exact absurd rfl h
  | cons l ls ih =>
    cases ls with
    | nil =>
      intro c hc
      exact hws l (by simp) c hc
    | cons l2 ls2 =>
      intro c hc
      have hJne : joinLines (l2 :: ls2) ≠ [] :=
        joinLines_ne_nil l2 ls2 (hne l2 (by simp))
      have hrw : (joinLines (l :: l2 :: ls2)).reverse
          = ((joinLines (l2 :: ls2)).reverse ++ ['\n']) ++ l.reverse := by
        show (l ++ '\n' :: joinLines (l2 :: ls2)).reverse = _
        rw [List.reverse_append, List.reverse_cons]
      rw [hrw, head?_append_left _ _ (by simp),
          head?_append_left _ _ (by simpa using hJne)] at hc
      exact ih (by simp) (fun x hx => hne x (List.mem_cons_of_mem _ hx))
        (fun x hx => hws x (List.mem_cons_of_mem _ hx)) c hc

theorem pyStrip_joinLines (lines : List (List Char))
    (hne : ∀ l ∈ lines, l ≠ [])
    (hh : ∀ l ∈ lines, ∀ c, l.head? = some c → isPyWs c = false)
    (hws : ∀ l ∈ lines, ∀ c, l.reverse.head? = some c → isPyWs c = false) :
    pyStrip (joinLines lines) = joinLines lines := by
  cases lines with
  | nil => rfl
  | cons l ls =>
    apply pyStrip_eq_self
    · intro c hc
      rw [joinLines_head? l ls (hne l (by simp))] at hc
      exact hh l (by simp) c hc
    · exact joinLines_reverse_head (l :: ls) (by simp) hne hws

theorem splitNewline_ne_nil (s : List Char) : splitNewline s ≠ [] := by
  cases s with
  | nil => simp [splitNewline]
  | cons c cs =>
    unfold splitNewline
    cases h : splitNewline cs with
    | nil => simp
    | cons hh tt =>
      split
      · simp
      · by_cases hc : c = '\n' <;> simp [hc]

theorem splitNewline_no_nl (l : List Char) (h : '\n' ∉ l) : splitNewline l = [l] := by
  induction l with
  | nil => rfl
  | cons c cs ih =>
    have hc : c ≠ '\n' := fun e => h (by simp [e])
    have hcs : '\n' ∉ cs := fun m => h (List.mem_cons_of_mem _ m)
    unfold splitNewline
    rw [ih hcs]
    simp [hc]

theorem splitNewline_append (l rest : List Char) (h : '\n' ∉ l) :
    splitNewline (l ++ '\n' :: rest) = l :: splitNewline rest := by
  induction l with
  | nil =>
    cases hs : splitNewline rest with
    | nil => exact absurd hs (splitNewline_ne_nil rest)
    | cons hh tt =>
      simp only [List.nil_append]
      conv_lhs => rw [splitNewline]
      rw [hs]
      simp
  | cons c cs ih =>
    have hc : c ≠ '\n' := fun e => h (by simp [e])
    have hcs : '\n' ∉ cs := fun m => h (List.mem_cons_of_mem _ m)
    show splitNewline (c :: (cs ++ '\n' :: rest)) = (c :: cs) :: splitNewline rest
    conv_lhs => rw [splitNewline]
    rw [ih hcs]
    simp [hc]

theorem splitNewline_joinLines (lines : List (List Char)) (h : lines ≠ [])
    (hnl : ∀ l ∈ lines, '\n' ∉ l) : splitNewline (joinLines lines) = lines := by
  induction lines with
  | nil => exact absurd rfl h
  | cons l ls ih =>
    cases ls with
    | nil => exact splitNewline_no_nl l (hnl l (by simp))
    | cons l2 ls2 =>
      show splitNewline (l ++ '\n' :: joinLines (l2 :: ls2)) = l :: (l2 :: ls2)
      rw [splitNewline_append _ _ (hnl l (by simp))]
      rw [ih (by simp) (fun x hx => hnl x (List.mem_cons_of_mem _ hx))]

theorem forall₂_left_prop (loads : List Char → Option JsonVal)
    (lines : List (List Char)) (recs : List JsonVal)
    (h : List.Forall₂ (goodLine loads) lines recs) :
    ∀ l ∈ lines, l ≠ [] ∧ (∀ c, l.head? = some c → isPyWs c = false)
      ∧ (∀ c, l.reverse.head? = some c → isPyWs c = false) ∧ '\n' ∉ l := by
  induction h with
  | nil => intro l hl; exact absurd hl (List.not_mem_nil l)
  | @cons a b la lb hab hrest ih =>
    intro l hl
    rcases List.mem_cons.mp hl with h1 | h2
    · subst h1
      exact ⟨hab.1, hab.2.1, hab.2.2.1, hab.2.2.2.1⟩
    · exact ih l h2

theorem filterMap_goodLines (loads : List Char → Option JsonVal)
    (lines : List (List Char)) (recs : List JsonVal)
    (h : List.Forall₂ (goodLine loads) lines recs) :
    lines.filterMap
        (fun rawLine => if pyStrip rawLine = [] then none else loads (pyStrip rawLine))
      = recs := by
  induction h with
  | nil => rfl
  | @cons l r ls rs hg hrest ih =>
    obtain ⟨hne, hh2, hr2, hnl, hload⟩ := hg
    have hps : pyStrip l = l := pyStrip_eq_self l hh2 hr2
    rw [List.filterMap_cons]
    simp [hps, hne, hload, ih]

/-- C9: decoding a gzip-compressed NDJSON serialization (one newline-free,
whitespace-trimmed, loads-invertible line per record) and parsing it recovers
the original record sequence in order; and two requests — one gzip, one
plain — whose bodies decode to the same text get identical responses and
push traces from the handler. -/
theorem c9_roundtrip :
    (∀ (env : Env) (body raw : List Nat) (lines : List (List Char)) (recs : List JsonVal),
        env.gz body = .ok raw → env.utf8 raw = .ok (joinLines lines) →
        List.Forall₂ (goodLine env.loads) lines recs →
        decodeBody env.gz env.utf8 body = .ok (joinLines lines)
        ∧ parseNDJSON env.loads (joinLines lines) = recs)
    ∧ (∀ (cfg : Config) (env : Env) (req1 req2 : HttpRequest) (content : List Char),
        req1.method = HttpMethod.post → req2.method = HttpMethod.post →
        req1.authHeader = req2.authHeader → req1.tokenArg = req2.tokenArg →
        req1.body ≠ [] → req2.body ≠ [] →
        decodeBody env.gz env.utf8 req1.body = .ok content →
        decodeBody env.gz env.utf8 req2.body = .ok content →
        receive_logs cfg env req1 = receive_logs cfg env req2) := by
  constructor
  · intro env body raw lines recs hgz hutf hfa
    have hdec : decodeBody env.gz env.utf8 body = .ok (joinLines lines) := by
      unfold decodeBody
      rw [hgz]
      simp only [hutf]
    refine ⟨hdec, ?_⟩
    rw [parseNDJSON_eq_filterMap]
    cases hfa with
    | nil => rfl
    | @cons l r ls rs hg hrest =>
      have hfa2 : List.Forall₂ (goodLine env.loads) (l :: ls) (r :: rs) :=
        List.Forall₂.cons hg hrest
      have hprops := forall₂_left_prop env.loads _ _ hfa2
      rw [pyStrip_joinLines (l :: ls) (fun x hx => (hprops x hx).1)
            (fun x hx => (hprops x hx).2.1) (fun x hx => (hprops x hx).2.2.1)]
      rw [splitNewline_joinLines (l :: ls) (by simp)
            (fun x hx => (hprops x hx).2.2.2)]
      exact filterMap_goodLines env.loads _ _ hfa2
  · intro cfg env r1 r2 content hm1 hm2 hah hta hb1 hb2 hd1 hd2
    have hauth : authRejected cfg r1 = authRejected cfg r2 := by
      unfold authRejected
      rw [hah, hta]
    cases ha : authRejected cfg r2 with
    | true =>
      unfold receive_logs
      rw [hm1, hm2, hauth, ha]
      simp
    | false =>
      rw [receive_logs_post_decoded cfg env r1 content hm1 (hauth.trans ha) hb1 hd1,
          receive_logs_post_decoded cfg env r2 content hm2 ha hb2 hd2]

theorem c9_witness :
    (decodeBody envW.gz envW.utf8 [0] = .ok (joinLines [['1']])
      ∧ parseNDJSON envW.loads (joinLines [['1']]) = [JsonVal.num 1])
    ∧ receive_logs ⟨"changeme"⟩ envW ⟨HttpMethod.post, none, none, [0]⟩
        = receive_logs ⟨"changeme"⟩ envW ⟨HttpMethod.post, none, none, [49]⟩ := by
  constructor
  · exact c9_roundtrip.1 envW [0] [49] [['1']] [JsonVal.num 1] rfl rfl
      (List.Forall₂.cons
        ⟨by decide,
         by intro c hc; simp at hc; subst hc; rfl,
         by intro c hc; simp at hc; subst hc; rfl,
         by decide, rfl⟩
        List.Forall₂.nil)
  · exact c9_roundtrip.2 ⟨"changeme"⟩ envW ⟨HttpMethod.post, none, none, [0]⟩
      ⟨HttpMethod.post, none, none, [49]⟩ ['1'] rfl rfl rfl rfl (by decide) (by decide) rfl rfl
